import Mathlib

/-!
Shallow embedding of `chexpert_labeler/stages/classify.py`
(`ModifiedDetector` and `Classifier`), the mention-classification core of
the CheXpert labeler pipeline, together with proofs of its precedence,
first-match, order-preservation, error-handling and orchestration
properties.

External collaborators (negbio's `find_nodes`, the base `Detector.match_neg`,
`semgraph.load` / `propagator.propagate`, and the `parse` / `ptb2ud` /
`negdetect` pipeline stages) are repository code that is not part of this
excerpt; they are modelled from the specification, as marked on each
definition.
-/

/-- A dependency-graph node: one sentence token, identified by `id`, covering
the token-offset range `[start, stop)`. -/
structure GNode where
  id : Nat
  start : Nat
  stop : Nat
deriving DecidableEq, Repr

/-- A sentence dependency graph, as consumed by the detector (the matcher
interface only needs its node set; edges are internal to the compiled
patterns, which are modelled as opaque matcher functions below). -/
structure Graph where
  nodes : List GNode
deriving DecidableEq, Repr

/-- A `MatcherObj` match result: `group0` is the primary bound node
(`m.group(0)` in the source); `mdata` stands for the remaining contextual
metadata carried by a match. -/
structure Match where
  group0 : GNode
  mdata : Nat
deriving DecidableEq, Repr

/-- A compiled ngrex pattern: `finditer graph` is the ordered sequence of
matches the pattern produces on a graph (the lazy `pattern.finditer(graph)`
iterator of the source, embedded as a list). -/
structure Pattern where
  finditer : Graph → List Match

/-- The two explicit labels of the source (`NEGATION`, `UNCERTAINTY` from
`chexpert_labeler.constants`); absence of a detection means POSITIVE. -/
inductive Label where
  | NEGATION
  | UNCERTAINTY
deriving DecidableEq, Repr

/-- A (begin, end) token-offset span locating one mention occurrence. -/
abbrev Loc := Nat × Nat

/-- One detection yielded by `detect`: `(label, matcher, location)`. -/
abbrev Detection := Label × Match × Loc

/-- An exception raised by `semgraph.load` / `propagator.propagate`. -/
inductive GraphError where
  | graphFailure (code : Nat)
deriving DecidableEq, Repr

/-- A `BioCSentence` as seen by `detect`: its `offset`, and the outcome of
the external graph-construction step.  Modelled from the spec:
`semgraph.load(sentence)` followed by `propagator.propagate(g)` (repository
code outside this excerpt) either produces a dependency graph or raises; the
sentence carries that outcome. -/
structure Sentence where
  offset : Nat
  graphResult : Except GraphError Graph

/-- Modelled from the spec: negbio's `neg_detector.find_nodes(g, begin, end)`
(repository code outside this excerpt) returns every graph node whose token
range falls within the location span. -/
def find_nodes (graph : Graph) (b : Nat) (e : Nat) : List GNode :=
  graph.nodes.filter (fun n => b ≤ n.start && n.stop ≤ e)

/-- The pattern-scanning loop that the source repeats verbatim in
`match_uncertainty` and `match_prenegation_uncertainty`: iterate over the
patterns in order, over each pattern's matches in order, and return the
first match whose `group(0)` node equals the candidate node. -/
def scanPatterns : List Pattern → Graph → GNode → Option Match
  | [], _, _ => none
  | p :: rest, graph, node =>
    match (p.finditer graph).find? (fun m => m.group0 == node) with
    | some m => some m
    | none => scanPatterns rest graph node

/-- `ModifiedDetector`: holds the three loaded pattern sets
(`ngrex.load` of the three resource paths, in load order). -/
structure ModifiedDetector where
  neg_patterns : List Pattern
  uncertain_patterns : List Pattern
  preneg_uncertain_patterns : List Pattern

/-- `ModifiedDetector.match_uncertainty`: first post-negation-uncertainty
pattern match bound to `node`, in pattern order then match order. -/
def ModifiedDetector.match_uncertainty (self : ModifiedDetector)
    (graph : Graph) (node : GNode) : Option Match :=
  scanPatterns self.uncertain_patterns graph node

/-- `ModifiedDetector.match_prenegation_uncertainty`: first
pre-negation-uncertainty pattern match bound to `node`. -/
def ModifiedDetector.match_prenegation_uncertainty (self : ModifiedDetector)
    (graph : Graph) (node : GNode) : Option Match :=
  scanPatterns self.preneg_uncertain_patterns graph node

/-- Modelled from the spec: `match_neg` is inherited from negbio's base
`neg_detector.Detector` class (repository code outside this excerpt); the
spec states the negation pattern set is scanned identically to the
uncertainty sets. -/
def ModifiedDetector.match_neg (self : ModifiedDetector)
    (graph : Graph) (node : GNode) : Option Match :=
  scanPatterns self.neg_patterns graph node

/-- The log line emitted when graph construction fails for a sentence. -/
def graphErrorMsg (offset : Nat) : String :=
  "Cannot parse dependency graph [offset=" ++ toString offset ++ "]"

/-- The per-node body of `detect`'s loop: pre-negation uncertainty first,
then negation, then post-negation uncertainty; the first match yields the
node's single detection, or none is yielded. -/
def ModifiedDetector.detectNode (self : ModifiedDetector) (g : Graph)
    (loc : Loc) (node : GNode) : List Detection :=
  match self.match_prenegation_uncertainty g node with
  | some preneg_m => [(Label.UNCERTAINTY, preneg_m, loc)]
  | none =>
    match self.match_neg g node with
    | some neg_m => [(Label.NEGATION, neg_m, loc)]
    | none =>
      match self.match_uncertainty g node with
      | some postneg_m => [(Label.UNCERTAINTY, postneg_m, loc)]
      | none => []

/-- The per-location body of `detect`'s loop: every node found in the
location span is tested independently, in discovery order. -/
def ModifiedDetector.detectLoc (self : ModifiedDetector) (g : Graph)
    (loc : Loc) : List Detection :=
  (find_nodes g loc.1 loc.2).flatMap (self.detectNode g loc)

/-- The full detection sequence of one sentence graph over the ordered
location list. -/
def ModifiedDetector.detections (self : ModifiedDetector) (g : Graph)
    (locs : List Loc) : List Detection :=
  locs.flatMap (self.detectLoc g)

/-- `ModifiedDetector.detect`: builds the semantic graph (with propagation)
for the sentence; on failure logs the sentence offset and re-raises; on
success yields the detections for each location in order.  The generator is
embedded as the pair (log lines, raised exception or yielded list). -/
def ModifiedDetector.detect (self : ModifiedDetector) (sentence : Sentence)
    (locs : List Loc) : List String × Except GraphError (List Detection) :=
  match sentence.graphResult with
  | Except.error e => ([graphErrorMsg sentence.offset], Except.error e)
  | Except.ok g => ([], Except.ok (self.detections g locs))

/-- A `BioCPassage`: its sentence list (each sentence's text content stands
for the whole sentence object here) plus the passage's other annotation
state. -/
structure Passage where
  sentences : List Nat
  annotations : Nat
deriving DecidableEq, Repr

/-- A `BioCDocument`: its ordered passages plus the rest of the document
state (parse trees, dependency graphs, recorded detections — mutated in
place by the external stages). -/
structure Document where
  passages : List Passage
  state : Nat
deriving DecidableEq, Repr

/-- An exception raised while processing one document: an error of one of
the three external stages, or Python's IndexError from subscripting an empty
passage list. -/
inductive PipeError where
  | external (code : Nat)
  | indexError
deriving DecidableEq, Repr

/-- The four per-document steps of `Classifier.classify`, in source order. -/
inductive Step where
  | parse
  | convert
  | detect
  | discard
deriving DecidableEq, Repr

/-- Modelled from the spec: the three external per-document stages invoked
by `classify` — `self.parser.parse_doc`, `self.ptb2dep.convert_doc`, and
`negdetect.detect(document, detector)` (repository code outside this
excerpt).  Each mutates the document in place, embedded as a function from
document to document that may raise. -/
structure Env where
  parse_doc : Document → Except PipeError Document
  convert_doc : Document → Except PipeError Document
  negdetect_detect : ModifiedDetector → Document → Except PipeError Document

/-- `Classifier`: owns the detector built from the three pattern paths (the
external parser/converter handles live in `Env`). -/
structure Classifier where
  detector : ModifiedDetector

/-- The final statement of the loop body,
`del document.passages[0].sentences[:]`: clears the first passage's sentence
list in place; raises IndexError when the passage list is empty. -/
def discardSentences (document : Document) : Except PipeError Document :=
  match document.passages with
  | [] => Except.error PipeError.indexError
  | p :: rest =>
    Except.ok (Document.mk (Passage.mk [] p.annotations :: rest) document.state)

/-- The step trace of one successfully completed loop iteration for the
document at position `i`. -/
def docTrace (i : Nat) : List (Nat × Step) :=
  [(i, Step.parse), (i, Step.convert), (i, Step.detect), (i, Step.discard)]

/-- One iteration of `classify`'s document loop: parse, convert, detect
(passing the classifier's own detector), then discard sentence text.  The
first component records which steps were attempted, in order; the second is
the surviving document or the propagated exception. -/
def classifyDoc (c : Classifier) (env : Env) (i : Nat) (document : Document) :
    List (Nat × Step) × Except PipeError Document :=
  match env.parse_doc document with
  | Except.error e => ([(i, Step.parse)], Except.error e)
  | Except.ok d1 =>
    match env.convert_doc d1 with
    | Except.error e => ([(i, Step.parse), (i, Step.convert)], Except.error e)
    | Except.ok d2 =>
      match env.negdetect_detect c.detector d2 with
      | Except.error e =>
        ([(i, Step.parse), (i, Step.convert), (i, Step.detect)], Except.error e)
      | Except.ok d3 =>
        match discardSentences d3 with
        | Except.error e => (docTrace i, Except.error e)
        | Except.ok d4 => (docTrace i, Except.ok d4)

/-- The document loop of `classify`, starting at position `i`: strictly
sequential, aborting on the first exception. -/
def classifyFrom (c : Classifier) (env : Env) :
    Nat → List Document → List (Nat × Step) × Except PipeError (List Document)
  | _, [] => ([], Except.ok [])
  | i, document :: rest =>
    match classifyDoc c env i document with
    | (tr, Except.error e) => (tr, Except.error e)
    | (tr, Except.ok d4) =>
      match classifyFrom c env (i + 1) rest with
      | (tr2, Except.error e) => (tr ++ tr2, Except.error e)
      | (tr2, Except.ok ds) => (tr ++ tr2, Except.ok (d4 :: ds))

/-- `Classifier.classify(collection)`: processes the collection's documents
in order (the `verbose` branch only wraps the same iteration in a progress
bar and is not modelled). -/
def Classifier.classify (c : Classifier) (env : Env) (docs : List Document) :
    List (Nat × Step) × Except PipeError (List Document) :=
  classifyFrom c env 0 docs

/-- The full step trace of a batch of `n` documents beginning at position
`i`. -/
def fullTraceFrom (i : Nat) (n : Nat) : List (Nat × Step) :=
  (List.range' i n).flatMap docTrace

/-- The full step trace of a completed batch of `n` documents. -/
def fullTrace (n : Nat) : List (Nat × Step) :=
  (List.range n).flatMap docTrace

/-- The full (location, node) enumeration a detection pass walks: every
location in input order, and within it every discovered node in discovery
order. -/
def locNodePairs (g : Graph) (locs : List Loc) : List (Loc × GNode) :=
  locs.flatMap fun loc => (find_nodes g loc.1 loc.2).map fun node => (loc, node)

/-- Concrete fixture: a first token node. -/
def nodeA : GNode := GNode.mk 1 0 2

/-- Concrete fixture: a second token node. -/
def nodeB : GNode := GNode.mk 2 3 5

/-- Concrete fixture: a two-node sentence graph. -/
def g0 : Graph := Graph.mk [nodeA, nodeB]

/-- Concrete fixture: a match binding `nodeA`. -/
def mA : Match := Match.mk nodeA 10

/-- Concrete fixture: a match binding `nodeB`. -/
def mB : Match := Match.mk nodeB 11

/-- Concrete fixture: a second match binding `nodeA`. -/
def mA2 : Match := Match.mk nodeA 12

/-- Concrete fixture: a pattern whose only match binds `nodeA`. -/
def patA : Pattern := Pattern.mk fun _ => [mA]

/-- Concrete fixture: a pattern matching `nodeA` then `nodeB`. -/
def patAB : Pattern := Pattern.mk fun _ => [mA, mB]

/-- Concrete fixture: a later-loaded pattern also binding `nodeA`. -/
def patA2 : Pattern := Pattern.mk fun _ => [mA2]

/-- Concrete fixture: a negation pattern binding `nodeA`. -/
def patNegA : Pattern := Pattern.mk fun _ => [Match.mk nodeA 20]

/-- Concrete fixture: a sentence whose graph construction succeeds. -/
def s0 : Sentence := Sentence.mk 42 (Except.ok g0)

/-- Concrete fixture: a sentence whose graph construction raises. -/
def sErr : Sentence := Sentence.mk 7 (Except.error (GraphError.graphFailure 3))

/-- Concrete fixture: detector with a pre-negation-uncertainty pattern and a
negation pattern both binding `nodeA`. -/
def d1 : ModifiedDetector := ModifiedDetector.mk [patNegA] [] [patA]

/-- Concrete fixture: detector with two same-set patterns binding `nodeA`. -/
def d2 : ModifiedDetector := ModifiedDetector.mk [] [patA, patA2] [patA, patA2]

/-- Concrete fixture: detector whose pre-negation-uncertainty pattern binds
both graph nodes. -/
def d3 : ModifiedDetector := ModifiedDetector.mk [] [] [patAB]

/-- Concrete fixture: detector with all three pattern sets empty. -/
def dEmpty : ModifiedDetector := ModifiedDetector.mk [] [] []

/-- Concrete fixture: detections of `d1` on `g0` at one location. -/
def dsC1 : List Detection := d1.detections g0 [(0, 10)]

/-- Concrete fixture: detections of `d3` on `g0` at one location. -/
def dsC3 : List Detection := d3.detections g0 [(0, 10)]

/-- Concrete fixture: detections of `dEmpty` on `g0` at one location. -/
def dsC4 : List Detection := dEmpty.detections g0 [(0, 10)]

/-- Concrete fixture: a one-passage document. -/
def passage0 : Passage := Passage.mk [5, 6] 0

/-- Concrete fixture: a document with one passage holding two sentences. -/
def doc0 : Document := Document.mk [passage0] 0

/-- Concrete fixture: `doc0` with its first passage's sentences discarded. -/
def doc0' : Document := Document.mk [Passage.mk [] 0] 0

/-- Concrete fixture: a document with no passages. -/
def docEmptyP : Document := Document.mk [] 9

/-- Concrete fixture: an environment whose external stages all succeed and
leave the document unchanged. -/
def envOk : Env :=
  Env.mk (fun d => Except.ok d) (fun d => Except.ok d) (fun _ d => Except.ok d)

/-- Concrete fixture: a classifier holding the empty-pattern detector. -/
def c0 : Classifier := Classifier.mk dEmpty

theorem scanPatterns_eq_none_iff (ps : List Pattern) (g : Graph) (n : GNode) :
    scanPatterns ps g n = none ↔ ∀ p ∈ ps, ∀ m ∈ p.finditer g, m.group0 ≠ n := by
  induction ps with
  | nil => simp [scanPatterns]
  | cons p rest ih =>
    simp only [scanPatterns]
    split
    next m hf =>
      constructor
      · intro hc; cases hc
      · intro hall
        have hm := List.mem_of_find?_eq_some hf
        have hg0 : m.group0 = n := by simpa using List.find?_some hf
        exact absurd hg0 (hall p (by simp) m hm)
    next hf =>
      rw [ih]
      constructor
      · intro hrest q hq m hm
        rcases List.mem_cons.mp hq with rfl | hq2
        · have := List.find?_eq_none.mp hf m hm
          simpa using this
        · exact hrest q hq2 m hm
      · intro hall q hq m hm
        exact hall q (List.mem_cons_of_mem _ hq) m hm

theorem scanPatterns_group0 (ps : List Pattern) (g : Graph) (n : GNode) (m : Match)
    (h : scanPatterns ps g n = some m) : m.group0 = n := by
  induction ps with
  | nil => simp [scanPatterns] at h
  | cons p rest ih =>
    simp only [scanPatterns] at h
    split at h
    next m' hf =>
      rw [Option.some.injEq] at h
      subst h
      simpa using List.find?_some hf
    next hf => exact ih h

theorem scanPatterns_first (ps1 : List Pattern) (p : Pattern) (ps2 : List Pattern)
    (g : Graph) (n : GNode) (ms1 : List Match) (m : Match) (ms2 : List Match)
    (h1 : ∀ q ∈ ps1, ∀ mm ∈ q.finditer g, mm.group0 ≠ n)
    (h2 : p.finditer g = ms1 ++ m :: ms2)
    (h3 : ∀ mm ∈ ms1, mm.group0 ≠ n)
    (h4 : m.group0 = n) :
    scanPatterns (ps1 ++ p :: ps2) g n = some m := by
  induction ps1 with
  | nil =>
    simp only [List.nil_append, scanPatterns, h2]
    have hnone : ms1.find? (fun mm => mm.group0 == n) = none :=
      List.find?_eq_none.mpr (by intro mm hmm; simpa using h3 mm hmm)
    rw [List.find?_append, hnone]
    simp [List.find?_cons, h4]
  | cons q ps1 ih =>
    simp only [List.cons_append, scanPatterns]
    have hnone : (q.finditer g).find? (fun mm => mm.group0 == n) = none :=
      List.find?_eq_none.mpr (by intro mm hmm; simpa using h1 q (by simp) mm hmm)
    rw [hnone]
    exact ih fun q' hq' => h1 q' (by simp [hq'])

theorem match_prenegation_uncertainty_group0 (d : ModifiedDetector) (g : Graph)
    (n : GNode) (m : Match) (h : d.match_prenegation_uncertainty g n = some m) :
    m.group0 = n :=
  scanPatterns_group0 _ _ _ _ h

theorem match_neg_group0 (d : ModifiedDetector) (g : Graph)
    (n : GNode) (m : Match) (h : d.match_neg g n = some m) : m.group0 = n :=
  scanPatterns_group0 _ _ _ _ h

theorem match_uncertainty_group0 (d : ModifiedDetector) (g : Graph)
    (n : GNode) (m : Match) (h : d.match_uncertainty g n = some m) : m.group0 = n :=
  scanPatterns_group0 _ _ _ _ h

theorem detectNode_of_preneg (d : ModifiedDetector) (g : Graph) (loc : Loc)
    (node : GNode) (m : Match) (h : d.match_prenegation_uncertainty g node = some m) :
    d.detectNode g loc node = [(Label.UNCERTAINTY, m, loc)] := by
  unfold ModifiedDetector.detectNode
  rw [h]

theorem detectNode_eq_nil (d : ModifiedDetector) (g : Graph) (loc : Loc) (node : GNode)
    (h1 : d.match_prenegation_uncertainty g node = none)
    (h2 : d.match_neg g node = none)
    (h3 : d.match_uncertainty g node = none) :
    d.detectNode g loc node = [] := by
  unfold ModifiedDetector.detectNode
  rw [h1, h2, h3]

theorem detectNode_spec (d : ModifiedDetector) (g : Graph) (loc : Loc) (node : GNode)
    (det : Detection) (h : det ∈ d.detectNode g loc node) :
    det.2.1.group0 = node ∧ det.2.2 = loc ∧
      (det.1 = Label.NEGATION → d.match_prenegation_uncertainty g node = none) := by
  unfold ModifiedDetector.detectNode at h
  split at h
  next m hm =>
    rw [List.mem_singleton] at h
    subst h
    exact ⟨match_prenegation_uncertainty_group0 d g node m hm, rfl, by intro hc; cases hc⟩
  next hpre =>
    split at h
    next m hm =>
      rw [List.mem_singleton] at h
      subst h
      exact ⟨match_neg_group0 d g node m hm, rfl, fun _ => hpre⟩
    next hneg =>
      split at h
      next m hm =>
        rw [List.mem_singleton] at h
        subst h
        exact ⟨match_uncertainty_group0 d g node m hm, rfl, by intro hc; cases hc⟩
      next hunc => cases h

theorem detectNode_length_le_one (d : ModifiedDetector) (g : Graph) (loc : Loc)
    (node : GNode) : (d.detectNode g loc node).length ≤ 1 := by
  unfold ModifiedDetector.detectNode
  split
  · simp
  · split
    · simp
    · split
      · simp
      · simp

theorem detect_of_ok (d : ModifiedDetector) (s : Sentence) (locs : List Loc)
    (g : Graph) (hg : s.graphResult = Except.ok g) :
    d.detect s locs = ([], Except.ok (d.detections g locs)) := by
  unfold ModifiedDetector.detect
  rw [hg]

theorem mem_detections_iff (d : ModifiedDetector) (g : Graph) (locs : List Loc)
    (det : Detection) :
    det ∈ d.detections g locs ↔
      ∃ loc ∈ locs, ∃ node ∈ find_nodes g loc.1 loc.2, det ∈ d.detectNode g loc node := by
  simp [ModifiedDetector.detections, ModifiedDetector.detectLoc, List.mem_flatMap]

/-- C1: when a candidate node is bound both by some pre-negation-uncertainty
pattern and by some negation pattern, `detect` yields the UNCERTAINTY label
with the pre-negation match for that node, never NEGATION, and the node's
detections are independent of the negation and post-negation pattern sets. -/
theorem detect_preneg_precedence_over_negation (d : ModifiedDetector) (s : Sentence)
    (locs : List Loc) (g : Graph) (node : GNode) (loc : Loc) (ds : List Detection)
    (hg : s.graphResult = Except.ok g)
    (hds : (d.detect s locs).2 = Except.ok ds)
    (hpre : ∃ p ∈ d.preneg_uncertain_patterns, ∃ m ∈ p.finditer g, m.group0 = node)
    (hneg : ∃ p ∈ d.neg_patterns, ∃ m ∈ p.finditer g, m.group0 = node)
    (hloc : loc ∈ locs) (hnode : node ∈ find_nodes g loc.1 loc.2) :
    (∃ m, d.match_prenegation_uncertainty g node = some m ∧
        (Label.UNCERTAINTY, m, loc) ∈ ds) ∧
    (∀ det ∈ ds, det.2.1.group0 = node → det.1 ≠ Label.NEGATION) ∧
    (∀ negPs uncPs : List Pattern,
        (ModifiedDetector.mk negPs uncPs d.preneg_uncertain_patterns).detectNode g loc node
          = d.detectNode g loc node) := by
  have hds' : ds = d.detections g locs := by
    rw [detect_of_ok d s locs g hg] at hds
    simpa using hds.symm
  obtain ⟨m0, hm0⟩ : ∃ m0, d.match_prenegation_uncertainty g node = some m0 := by
    cases hp : d.match_prenegation_uncertainty g node with
    | none =>
      exfalso
      obtain ⟨p, hpmem, m, hmmem, hmg⟩ := hpre
      have hp' : scanPatterns d.preneg_uncertain_patterns g node = none := hp
      exact (scanPatterns_eq_none_iff _ _ _).mp hp' p hpmem m hmmem hmg
    | some m0 => exact ⟨m0, rfl⟩
  refine ⟨⟨m0, hm0, ?_⟩, ?_, ?_⟩
  · rw [hds']
    exact (mem_detections_iff d g locs _).mpr
      ⟨loc, hloc, node, hnode, by rw [detectNode_of_preneg d g loc node m0 hm0]; simp⟩
  · intro det hdet hdg hlbl
    rw [hds'] at hdet
    obtain ⟨loc', hloc', node', hnode', hdn⟩ := (mem_detections_iff d g locs det).mp hdet
    obtain ⟨hkey, _, hnegnone⟩ := detectNode_spec d g loc' node' det hdn
    have hnn : node' = node := by rw [← hkey, hdg]
    rw [hnn] at hnegnone
    rw [hnegnone hlbl] at hm0
    cases hm0
  · intro negPs uncPs
    have hm0' : (ModifiedDetector.mk negPs uncPs
        d.preneg_uncertain_patterns).match_prenegation_uncertainty g node = some m0 := hm0
    rw [detectNode_of_preneg _ g loc node m0 hm0',
      detectNode_of_preneg d g loc node m0 hm0]

/-- Witness for C1 at a concrete detector, graph, node and location. -/
theorem detect_preneg_precedence_witness :
    (∃ m, d1.match_prenegation_uncertainty g0 nodeA = some m ∧
        (Label.UNCERTAINTY, m, ((0, 10) : Loc)) ∈ dsC1) ∧
    (∀ det ∈ dsC1, det.2.1.group0 = nodeA → det.1 ≠ Label.NEGATION) ∧
    (∀ negPs uncPs : List Pattern,
        (ModifiedDetector.mk negPs uncPs d1.preneg_uncertain_patterns).detectNode g0 (0, 10) nodeA
          = d1.detectNode g0 (0, 10) nodeA) :=
  detect_preneg_precedence_over_negation d1 s0 [(0, 10)] g0 nodeA (0, 10) dsC1 rfl rfl
    (by decide) (by decide) (by decide) (by decide)

/-- C2: within one uncertainty pattern set the returned match comes from the
earliest pattern in load order, and within that pattern from the first
node-equal match in match-iteration order; later patterns do not affect the
result. -/
theorem match_first_in_load_order (d : ModifiedDetector) (g : Graph) (n : GNode) :
    (∀ (ps1 : List Pattern) (p : Pattern) (ps2 : List Pattern)
        (ms1 : List Match) (m : Match) (ms2 : List Match),
        d.uncertain_patterns = ps1 ++ p :: ps2 →
        (∀ q ∈ ps1, ∀ mm ∈ q.finditer g, mm.group0 ≠ n) →
        p.finditer g = ms1 ++ m :: ms2 →
        (∀ mm ∈ ms1, mm.group0 ≠ n) → m.group0 = n →
        d.match_uncertainty g n = some m) ∧
    (∀ (ps1 : List Pattern) (p : Pattern) (ps2 : List Pattern)
        (ms1 : List Match) (m : Match) (ms2 : List Match),
        d.preneg_uncertain_patterns = ps1 ++ p :: ps2 →
        (∀ q ∈ ps1, ∀ mm ∈ q.finditer g, mm.group0 ≠ n) →
        p.finditer g = ms1 ++ m :: ms2 →
        (∀ mm ∈ ms1, mm.group0 ≠ n) → m.group0 = n →
        d.match_prenegation_uncertainty g n = some m) := by
  constructor
  · intro ps1 p ps2 ms1 m ms2 hsp h1 h2 h3 h4
    unfold ModifiedDetector.match_uncertainty
    rw [hsp]
    exact scanPatterns_first ps1 p ps2 g n ms1 m ms2 h1 h2 h3 h4
  · intro ps1 p ps2 ms1 m ms2 hsp h1 h2 h3 h4
    unfold ModifiedDetector.match_prenegation_uncertainty
    rw [hsp]
    exact scanPatterns_first ps1 p ps2 g n ms1 m ms2 h1 h2 h3 h4

/-- Witness for C2: with two patterns binding the same node, the match of
the earlier pattern (`mA`, not `mA2`) is returned by both methods. -/
theorem match_first_in_load_order_witness :
    d2.match_uncertainty g0 nodeA = some mA ∧
    d2.match_prenegation_uncertainty g0 nodeA = some mA :=
  ⟨(match_first_in_load_order d2 g0 nodeA).1 [] patA [patA2] [] mA [] rfl
      (by simp) rfl (by simp) rfl,
    (match_first_in_load_order d2 g0 nodeA).2 [] patA [patA2] [] mA [] rfl
      (by simp) rfl (by simp) rfl⟩

/-- C9: the two uncertainty matchers return none exactly when no pattern of
their set has a match whose bound node equals the candidate node, and any
returned match binds exactly that node. -/
theorem match_none_iff_no_node_equal_match (d : ModifiedDetector) (g : Graph) (n : GNode) :
    (d.match_uncertainty g n = none ↔
        ∀ p ∈ d.uncertain_patterns, ∀ m ∈ p.finditer g, m.group0 ≠ n) ∧
    (d.match_prenegation_uncertainty g n = none ↔
        ∀ p ∈ d.preneg_uncertain_patterns, ∀ m ∈ p.finditer g, m.group0 ≠ n) ∧
    (∀ m, d.match_uncertainty g n = some m → m.group0 = n) ∧
    (∀ m, d.match_prenegation_uncertainty g n = some m → m.group0 = n) :=
  ⟨scanPatterns_eq_none_iff d.uncertain_patterns g n,
    scanPatterns_eq_none_iff d.preneg_uncertain_patterns g n,
    fun m h => scanPatterns_group0 d.uncertain_patterns g n m h,
    fun m h => scanPatterns_group0 d.preneg_uncertain_patterns g n m h⟩

/-- Witness for C9 at concrete detectors with no node-equal match. -/
theorem match_none_iff_witness :
    d1.match_uncertainty g0 nodeA = none ∧ d2.match_uncertainty g0 nodeB = none :=
  ⟨(match_none_iff_no_node_equal_match d1 g0 nodeA).1.mpr (by decide),
    (match_none_iff_no_node_equal_match d2 g0 nodeB).1.mpr (by decide)⟩

/-- C4: when no pattern of any of the three sets has a match bound to the
candidate node, `detect` yields no Detection for that node. -/
theorem detect_no_match_yields_nothing (d : ModifiedDetector) (s : Sentence)
    (locs : List Loc) (g : Graph) (node : GNode) (ds : List Detection)
    (hg : s.graphResult = Except.ok g)
    (hds : (d.detect s locs).2 = Except.ok ds)
    (h1 : ∀ p ∈ d.preneg_uncertain_patterns, ∀ m ∈ p.finditer g, m.group0 ≠ node)
    (h2 : ∀ p ∈ d.neg_patterns, ∀ m ∈ p.finditer g, m.group0 ≠ node)
    (h3 : ∀ p ∈ d.uncertain_patterns, ∀ m ∈ p.finditer g, m.group0 ≠ node) :
    (∀ loc : Loc, d.detectNode g loc node = []) ∧
    (∀ det ∈ ds, det.2.1.group0 ≠ node) := by
  have hds' : ds = d.detections g locs := by
    rw [detect_of_ok d s locs g hg] at hds
    simpa using hds.symm
  have hpre : d.match_prenegation_uncertainty g node = none :=
    (scanPatterns_eq_none_iff _ _ _).mpr h1
  have hneg : d.match_neg g node = none :=
    (scanPatterns_eq_none_iff _ _ _).mpr h2
  have hunc : d.match_uncertainty g node = none :=
    (scanPatterns_eq_none_iff _ _ _).mpr h3
  have hnil : ∀ loc : Loc, d.detectNode g loc node = [] := fun loc =>
    detectNode_eq_nil d g loc node hpre hneg hunc
  refine ⟨hnil, ?_⟩
  intro det hdet hc
  rw [hds'] at hdet
  obtain ⟨loc', hloc', node', hnode', hdn⟩ := (mem_detections_iff d g locs det).mp hdet
  have hkey := (detectNode_spec d g loc' node' det hdn).1
  have hnn : node' = node := by rw [← hkey, hc]
  rw [hnn, hnil loc'] at hdn
  cases hdn

/-- Witness for C4 at the empty-pattern detector. -/
theorem detect_no_match_witness :
    (∀ loc : Loc, dEmpty.detectNode g0 loc nodeA = []) ∧
    (∀ det ∈ dsC4, det.2.1.group0 ≠ nodeA) :=
  detect_no_match_yields_nothing dEmpty s0 [(0, 10)] g0 nodeA dsC4 rfl rfl
    (by simp [dEmpty]) (by simp [dEmpty]) (by simp [dEmpty])

theorem map_eq_flatMap_singleton {α β : Type} (l : List α) (f : α → β) :
    l.map f = l.flatMap fun x => [f x] := by
  induction l with
  | nil => rfl
  | cons a l ih => simp [ih]

theorem flatMap_sublist_flatMap {α β : Type} (l : List α) (f fg : α → List β)
    (h : ∀ x ∈ l, List.Sublist (f x) (fg x)) :
    List.Sublist (l.flatMap f) (l.flatMap fg) := by
  induction l with
  | nil => simp
  | cons a l ih =>
    simp only [List.flatMap_cons]
    exact List.Sublist.append (h a (by simp)) (ih fun x hx => h x (by simp [hx]))

theorem detections_key_sublist (d : ModifiedDetector) (g : Graph) (locs : List Loc) :
    List.Sublist ((d.detections g locs).map fun det => (det.2.2, det.2.1.group0))
      (locNodePairs g locs) := by
  unfold ModifiedDetector.detections locNodePairs
  rw [List.map_flatMap]
  apply flatMap_sublist_flatMap
  intro loc _
  unfold ModifiedDetector.detectLoc
  rw [List.map_flatMap]
  rw [map_eq_flatMap_singleton (find_nodes g loc.1 loc.2) (fun node => (loc, node))]
  apply flatMap_sublist_flatMap
  intro node _
  cases hdn : d.detectNode g loc node with
  | nil => simp
  | cons det rest =>
    have hlen := detectNode_length_le_one d g loc node
    rw [hdn] at hlen
    have hrest : rest = [] := by
      cases rest with
      | nil => rfl
      | cons x xs => simp at hlen
    subst hrest
    obtain ⟨h1, h2, _⟩ := detectNode_spec d g loc node det (by rw [hdn]; simp)
    simp only [List.map_cons, List.map_nil]
    have hkey : ((det.2.2, det.2.1.group0) : Loc × GNode) = (loc, node) := by
      rw [h1, h2]
    rw [hkey]

theorem nodup_countP_le_one {α : Type} (l : List α) (p : α → Bool) (hl : l.Nodup)
    (hp : ∀ a b, p a → p b → a = b) : l.countP p ≤ 1 := by
  induction l with
  | nil => simp
  | cons a l ih =>
    rw [List.countP_cons]
    by_cases hpa : p a
    · have hz : l.countP p = 0 := by
        rw [List.countP_eq_zero]
        intro b hb hpb
        have hba : b = a := hp b a hpb hpa
        rw [hba] at hb
        exact (List.nodup_cons.mp hl).1 hb
      simp [hpa, hz]
    · simp only [hpa, if_false]
      simpa using ih (List.nodup_cons.mp hl).2

theorem locNodePairs_nodup (g : Graph) (locs : List Loc)
    (hlocs : locs.Nodup) (hnodes : g.nodes.Nodup) : (locNodePairs g locs).Nodup := by
  unfold locNodePairs
  rw [List.nodup_flatMap]
  constructor
  · intro loc _
    apply List.Nodup.map
    · intro a b hab
      simpa using congrArg Prod.snd hab
    · unfold find_nodes
      exact List.Nodup.filter _ hnodes
  · apply List.Pairwise.imp ?_ hlocs
    intro a b hab x hxa hxb
    obtain ⟨na, _, hna⟩ := List.mem_map.mp hxa
    obtain ⟨nb, _, hnb⟩ := List.mem_map.mp hxb
    apply hab
    have h1 : x.1 = a := by rw [← hna]
    have h2 : x.1 = b := by rw [← hnb]
    rw [← h1, h2]

/-- C5: detections preserve the input location order and, within one
location, node-discovery order: the (location, bound node) key sequence of
the yielded detections is a subsequence of the full enumeration walked by
the detector. -/
theorem detect_order_preservation (d : ModifiedDetector) (s : Sentence)
    (locs : List Loc) (g : Graph) (ds : List Detection)
    (hg : s.graphResult = Except.ok g)
    (hds : (d.detect s locs).2 = Except.ok ds) :
    List.Sublist (ds.map fun det => (det.2.2, det.2.1.group0)) (locNodePairs g locs) := by
  have hds' : ds = d.detections g locs := by
    rw [detect_of_ok d s locs g hg] at hds
    simpa using hds.symm
  rw [hds']
  exact detections_key_sublist d g locs

/-- Witness for C5 at a concrete detector and sentence. -/
theorem detect_order_preservation_witness :
    List.Sublist (dsC3.map fun det => (det.2.2, det.2.1.group0))
      (locNodePairs g0 [(0, 10)]) :=
  detect_order_preservation d3 s0 [(0, 10)] g0 dsC3 rfl rfl

/-- C3 counterexample: with one location overlapping two graph nodes both
bound by a pre-negation-uncertainty pattern, `detect` yields two Detections
for the same (sentence, location) pair. -/
theorem detect_two_detections_one_location_cex :
    (d3.detect s0 [(0, 10)]).2 =
      Except.ok [(Label.UNCERTAINTY, mA, (0, 10)), (Label.UNCERTAINTY, mB, (0, 10))] ∧
    (dsC3.countP fun det => det.2.2 == ((0, 10) : Loc)) = 2 :=
  ⟨rfl, rfl⟩

/-- C3 amended: at most one Detection per (sentence, location, node) triple:
with duplicate-free locations and graph nodes, `detect` yields at most one
Detection carrying any given (location, bound node) key. -/
theorem detect_at_most_one_per_loc_node (d : ModifiedDetector) (s : Sentence)
    (locs : List Loc) (g : Graph) (ds : List Detection) (l : Loc) (n : GNode)
    (hg : s.graphResult = Except.ok g)
    (hds : (d.detect s locs).2 = Except.ok ds)
    (hlocs : locs.Nodup) (hnodes : g.nodes.Nodup) :
    ((ds.map fun det => (det.2.2, det.2.1.group0)).count (l, n)) ≤ 1 := by
  have hds' : ds = d.detections g locs := by
    rw [detect_of_ok d s locs g hg] at hds
    simpa using hds.symm
  rw [hds']
  have hnd := List.Nodup.sublist (detections_key_sublist d g locs)
    (locNodePairs_nodup g locs hlocs hnodes)
  rw [List.count_eq_countP]
  apply nodup_countP_le_one _ _ hnd
  intro a b ha hb
  rw [eq_of_beq ha, eq_of_beq hb]

/-- Witness for the amended C3 at a concrete detector and sentence. -/
theorem detect_at_most_one_witness :
    ((dsC3.map fun det => (det.2.2, det.2.1.group0)).count (((0, 10) : Loc), nodeA)) ≤ 1 :=
  detect_at_most_one_per_loc_node d3 s0 [(0, 10)] g0 dsC3 (0, 10) nodeA rfl rfl
    (by decide) (by decide)

/-- C6: when graph construction for a sentence raises, `detect` logs one
message containing the sentence offset, re-raises the same exception, and
yields no detections. -/
theorem detect_graph_error_logged_and_reraised (d : ModifiedDetector) (s : Sentence)
    (locs : List Loc) (e : GraphError) (h : s.graphResult = Except.error e) :
    d.detect s locs = ([graphErrorMsg s.offset], Except.error e) ∧
    (∃ pre post, graphErrorMsg s.offset = pre ++ toString s.offset ++ post) := by
  constructor
  · unfold ModifiedDetector.detect
    rw [h]
  · exact ⟨"Cannot parse dependency graph [offset=", "]", rfl⟩

/-- Witness for C6 at a concrete failing sentence. -/
theorem detect_graph_error_witness :
    dEmpty.detect sErr [(0, 10)] =
      ([graphErrorMsg sErr.offset], Except.error (GraphError.graphFailure 3)) ∧
    (∃ pre post, graphErrorMsg sErr.offset = pre ++ toString sErr.offset ++ post) :=
  detect_graph_error_logged_and_reraised dEmpty sErr [(0, 10)]
    (GraphError.graphFailure 3) rfl

theorem fullTraceFrom_succ (i n : Nat) :
    fullTraceFrom i (n + 1) = docTrace i ++ fullTraceFrom (i + 1) n := by
  unfold fullTraceFrom
  rw [List.range'_succ, List.flatMap_cons]

theorem classifyDoc_trace_prefix (c : Classifier) (env : Env) (i : Nat)
    (document : Document) :
    ∃ t, (classifyDoc c env i document).1 ++ t = docTrace i := by
  unfold classifyDoc
  split
  · exact ⟨[(i, Step.convert), (i, Step.detect), (i, Step.discard)], rfl⟩
  · split
    · exact ⟨[(i, Step.detect), (i, Step.discard)], rfl⟩
    · split
      · exact ⟨[(i, Step.discard)], rfl⟩
      · split
        · exact ⟨[], by simp⟩
        · exact ⟨[], by simp⟩

theorem classifyDoc_ok_trace (c : Classifier) (env : Env) (i : Nat)
    (document : Document) (tr : List (Nat × Step)) (d4 : Document)
    (h : classifyDoc c env i document = (tr, Except.ok d4)) : tr = docTrace i := by
  unfold classifyDoc at h
  split at h
  · rw [Prod.mk.injEq] at h
    exact absurd h.2 (by simp)
  · split at h
    · rw [Prod.mk.injEq] at h
      exact absurd h.2 (by simp)
    · split at h
      · rw [Prod.mk.injEq] at h
        exact absurd h.2 (by simp)
      · split at h
        · rw [Prod.mk.injEq] at h
          exact absurd h.2 (by simp)
        · rw [Prod.mk.injEq] at h
          exact h.1.symm

theorem classifyDoc_ok_decompose (c : Classifier) (env : Env) (i : Nat)
    (document : Document) (tr : List (Nat × Step)) (d4 : Document)
    (h : classifyDoc c env i document = (tr, Except.ok d4)) :
    ∃ da db dc, env.parse_doc document = Except.ok da ∧
      env.convert_doc da = Except.ok db ∧
      env.negdetect_detect c.detector db = Except.ok dc ∧
      discardSentences dc = Except.ok d4 := by
  unfold classifyDoc at h
  split at h
  next e hp =>
    rw [Prod.mk.injEq] at h
    exact absurd h.2 (by simp)
  next da hp =>
    split at h
    next e hc =>
      rw [Prod.mk.injEq] at h
      exact absurd h.2 (by simp)
    next db hc =>
      split at h
      next e hn =>
        rw [Prod.mk.injEq] at h
        exact absurd h.2 (by simp)
      next dc hn =>
        split at h
        next e hd =>
          rw [Prod.mk.injEq] at h
          exact absurd h.2 (by simp)
        next d4' hd =>
          rw [Prod.mk.injEq] at h
          have h4 : d4' = d4 := by injection h.2
          rw [h4] at hd
          exact ⟨da, db, dc, hp, hc, hn, hd⟩

theorem discardSentences_frame (dc d4 : Document)
    (h : discardSentences dc = Except.ok d4) :
    ∃ p rest, dc.passages = p :: rest ∧
      d4 = Document.mk (Passage.mk [] p.annotations :: rest) dc.state := by
  unfold discardSentences at h
  split at h
  next hnil => cases h
  next p rest hcons =>
    refine ⟨p, rest, hcons, ?_⟩
    injection h with h2
    exact h2.symm

theorem classifyFrom_ok_trace (c : Classifier) (env : Env) :
    ∀ (docs : List Document) (i : Nat) (tr : List (Nat × Step)) (ds : List Document),
      classifyFrom c env i docs = (tr, Except.ok ds) →
      tr = fullTraceFrom i docs.length ∧ ds.length = docs.length := by
  intro docs
  induction docs with
  | nil =>
    intro i tr ds h
    unfold classifyFrom at h
    rw [Prod.mk.injEq] at h
    obtain ⟨h1, h2⟩ := h
    have h2' : ([] : List Document) = ds := by injection h2
    exact ⟨h1.symm, by rw [← h2']⟩
  | cons document rest ih =>
    intro i tr ds h
    unfold classifyFrom at h
    cases hcd : classifyDoc c env i document with
    | mk tr1 r1 =>
      rw [hcd] at h
      cases r1 with
      | error e1 => simp at h
      | ok d4 =>
        cases hcf : classifyFrom c env (i + 1) rest with
        | mk tr2 r2 =>
          rw [hcf] at h
          cases r2 with
          | error e2 => simp at h
          | ok ds2 =>
            simp only [Prod.mk.injEq, Except.ok.injEq] at h
            obtain ⟨htr, hds⟩ := h
            have h1 : tr1 = docTrace i := classifyDoc_ok_trace c env i document tr1 d4 hcd
            obtain ⟨h2, h3⟩ := ih (i + 1) tr2 ds2 hcf
            constructor
            · rw [← htr, h1, h2, List.length_cons, fullTraceFrom_succ]
            · rw [← hds]
              simp [h3]

theorem classifyFrom_error_prefix (c : Classifier) (env : Env) :
    ∀ (docs : List Document) (i : Nat) (tr : List (Nat × Step)) (e : PipeError),
      classifyFrom c env i docs = (tr, Except.error e) →
      ∃ t, tr ++ t = fullTraceFrom i docs.length := by
  intro docs
  induction docs with
  | nil =>
    intro i tr e h
    unfold classifyFrom at h
    rw [Prod.mk.injEq] at h
    exact absurd h.2 (by simp)
  | cons document rest ih =>
    intro i tr e h
    unfold classifyFrom at h
    cases hcd : classifyDoc c env i document with
    | mk tr1 r1 =>
      rw [hcd] at h
      cases r1 with
      | error e1 =>
        simp only [Prod.mk.injEq, Except.error.injEq] at h
        obtain ⟨htr, _⟩ := h
        obtain ⟨t0, ht0⟩ := classifyDoc_trace_prefix c env i document
        rw [hcd] at ht0
        simp only [] at ht0
        refine ⟨t0 ++ fullTraceFrom (i + 1) rest.length, ?_⟩
        rw [List.length_cons, fullTraceFrom_succ, ← htr, ← List.append_assoc, ht0]
      | ok d4 =>
        cases hcf : classifyFrom c env (i + 1) rest with
        | mk tr2 r2 =>
          rw [hcf] at h
          cases r2 with
          | error e2 =>
            simp only [Prod.mk.injEq, Except.error.injEq] at h
            obtain ⟨htr, _⟩ := h
            have h1 : tr1 = docTrace i := classifyDoc_ok_trace c env i document tr1 d4 hcd
            obtain ⟨t0, ht0⟩ := ih (i + 1) tr2 e2 hcf
            refine ⟨t0, ?_⟩
            rw [List.length_cons, fullTraceFrom_succ, ← htr, h1, List.append_assoc, ht0]
          | ok ds2 => simp at h

/-- C7: `classify` processes documents strictly sequentially in collection
order, performing for each document exactly the four steps parse, convert,
detect (with the classifier passing its own detector) and discard, in that
order; on success the step trace is the full in-order enumeration, and any
failure aborts the batch with the trace stopping at the failing step. -/
theorem classify_sequential_four_steps (c : Classifier) (env : Env)
    (docs : List Document) (tr : List (Nat × Step))
    (r : Except PipeError (List Document))
    (h : c.classify env docs = (tr, r)) :
    (∀ ds, r = Except.ok ds →
        tr = fullTrace docs.length ∧ ds.length = docs.length) ∧
    (∀ e, r = Except.error e → ∃ t, tr ++ t = fullTrace docs.length) := by
  have hft : fullTrace docs.length = fullTraceFrom 0 docs.length := by
    unfold fullTrace fullTraceFrom
    rw [List.range_eq_range']
  constructor
  · intro ds hr
    rw [hft]
    subst hr
    exact classifyFrom_ok_trace c env docs 0 tr ds h
  · intro e hr
    rw [hft]
    subst hr
    exact classifyFrom_error_prefix c env docs 0 tr e h

/-- Witness for C7: a one-document batch whose steps all succeed. -/
theorem classify_sequential_witness :
    (∀ ds, (Except.ok [doc0'] : Except PipeError (List Document)) = Except.ok ds →
        [(0, Step.parse), (0, Step.convert), (0, Step.detect), (0, Step.discard)]
          = fullTrace [doc0].length ∧ ds.length = [doc0].length) ∧
    (∀ e, (Except.ok [doc0'] : Except PipeError (List Document)) = Except.error e →
        ∃ t, [(0, Step.parse), (0, Step.convert), (0, Step.detect), (0, Step.discard)]
          ++ t = fullTrace [doc0].length) :=
  classify_sequential_four_steps c0 envOk [doc0]
    [(0, Step.parse), (0, Step.convert), (0, Step.detect), (0, Step.discard)]
    (Except.ok [doc0']) rfl

/-- C8: when a document completes the loop, the surviving document is the
detect-step output with exactly its first passage's sentences discarded:
the first passage's other state, all further passages and the rest of the
document state are left in place. -/
theorem classify_discard_frame (c : Classifier) (env : Env) (i : Nat)
    (document : Document) (tr : List (Nat × Step)) (d4 : Document)
    (h : classifyDoc c env i document = (tr, Except.ok d4)) :
    ∃ da db dc, env.parse_doc document = Except.ok da ∧
      env.convert_doc da = Except.ok db ∧
      env.negdetect_detect c.detector db = Except.ok dc ∧
      ∃ p rest, dc.passages = p :: rest ∧
        d4 = Document.mk (Passage.mk [] p.annotations :: rest) dc.state := by
  obtain ⟨da, db, dc, h1, h2, h3, h4⟩ := classifyDoc_ok_decompose c env i document tr d4 h
  obtain ⟨p, rest, hp, hd⟩ := discardSentences_frame dc d4 h4
  exact ⟨da, db, dc, h1, h2, h3, p, rest, hp, hd⟩

/-- Witness for C8 at a concrete document and all-succeeding environment. -/
theorem classify_discard_frame_witness :
    ∃ da db dc, envOk.parse_doc doc0 = Except.ok da ∧
      envOk.convert_doc da = Except.ok db ∧
      envOk.negdetect_detect c0.detector db = Except.ok dc ∧
      ∃ p rest, dc.passages = p :: rest ∧
        doc0' = Document.mk (Passage.mk [] p.annotations :: rest) dc.state :=
  classify_discard_frame c0 envOk 0 doc0
    [(0, Step.parse), (0, Step.convert), (0, Step.detect), (0, Step.discard)] doc0' rfl

/-- C10: the text-discarding step indexes the first passage unconditionally:
if the document reaching it has no passages, the iteration fails with
IndexError instead of completing, and `classify` on a collection starting
with such a document aborts; with a nonempty passage list only the first
passage's sentences are cleared and all further passages stay unchanged. -/
theorem classify_requires_nonempty_passages (c : Classifier) (env : Env) (i : Nat)
    (document da db dc : Document) (more : List Document)
    (h1 : env.parse_doc document = Except.ok da)
    (h2 : env.convert_doc da = Except.ok db)
    (h3 : env.negdetect_detect c.detector db = Except.ok dc) :
    (dc.passages = [] →
        classifyDoc c env i document = (docTrace i, Except.error PipeError.indexError) ∧
        c.classify env (document :: more) =
          (docTrace 0, Except.error PipeError.indexError)) ∧
    (∀ p rest, dc.passages = p :: rest →
        classifyDoc c env i document =
          (docTrace i,
            Except.ok (Document.mk (Passage.mk [] p.annotations :: rest) dc.state))) := by
  constructor
  · intro hnil
    have hdisc : discardSentences dc = Except.error PipeError.indexError := by
      simp only [discardSentences, hnil]
    have hcd : ∀ j : Nat, classifyDoc c env j document =
        (docTrace j, Except.error PipeError.indexError) := by
      intro j
      simp only [classifyDoc, h1, h2, h3, hdisc]
    refine ⟨hcd i, ?_⟩
    show classifyFrom c env 0 (document :: more) =
      (docTrace 0, Except.error PipeError.indexError)
    simp only [classifyFrom, hcd 0]
  · intro p rest hcons
    have hdisc : discardSentences dc =
        Except.ok (Document.mk (Passage.mk [] p.annotations :: rest) dc.state) := by
      simp only [discardSentences, hcons]
    simp only [classifyDoc, h1, h2, h3, hdisc]

/-- Witness for C10 at a passage-less document and an all-succeeding
environment. -/
theorem classify_requires_nonempty_witness :
    (docEmptyP.passages = [] →
        classifyDoc c0 envOk 0 docEmptyP =
          (docTrace 0, Except.error PipeError.indexError) ∧
        c0.classify envOk (docEmptyP :: []) =
          (docTrace 0, Except.error PipeError.indexError)) ∧
    (∀ p rest, docEmptyP.passages = p :: rest →
        classifyDoc c0 envOk 0 docEmptyP =
          (docTrace 0,
            Except.ok (Document.mk (Passage.mk [] p.annotations :: rest) docEmptyP.state))) :=
  classify_requires_nonempty_passages c0 envOk 0 docEmptyP docEmptyP docEmptyP docEmptyP []
    rfl rfl rfl
